import Mathlib

/-!
Verification of the outreach-email campaign core in `src/main.py`
(class `EmailClient`): column addressing, row parsing via
`dict(zip_longest(cols, row))`, template resolution and rendering,
the send path, and the post-send sheet update `_after_email`.

Python-level conventions used by the embedding:
* a cell read through the row dictionary is `Option String`:
  `some s` for a present cell, `none` for the `None` padding that
  `itertools.zip_longest` inserts for missing trailing cells;
* Python truthiness of such a value: `None` and `""` are falsy;
* `int(x)` on such a value: `None` raises `TypeError`, a non-numeric
  string raises `ValueError`; both are modelled as `Except` errors;
* file reads, sheet writes and mail sends are modelled as explicit
  data (a template store function, an `Action` trace).
-/

namespace ReachOut

/-! ## Column addressing (`EmailClient._col_letter`) -/

/-- The while-loop of `_col_letter`: starting from the 1-based column
number `col`, repeatedly emit `chr(ord('A') + (col - 1) % 26)` and set
`col := (col - 1) // 26` until `col = 0`.  Produces the letters
low-order digit first, like the Python string being appended to.
`fuel` bounds the number of iterations; since `col` strictly decreases
on every iteration, `fuel = col` is always enough
(`colLetterGo_eq_reverse_bij26` below shows the fuel never runs out
when `col ≤ fuel`). -/
def colLetterGo : Nat → Nat → List Char
  | _, 0 => []
  | 0, _ + 1 => []
  | fuel + 1, col + 1 =>
    Char.ofNat ('A'.toNat + col % 26) :: colLetterGo fuel (col / 26)

/-- Embedding of `EmailClient._col_letter(col, start_index=0)`: `col += 1`, run the
loop, return the reversal of the accumulated string. -/
def col_letter (col : Nat) : String :=
  String.mk (colLetterGo (col + 1) (col + 1)).reverse

/-- Modelled from the spec: the bijective base-26 numeral of a positive
number, digits 'A'..'Z' (digit values 1..26, no zero digit), most
significant digit first: `n = 26*q + d` with `d ∈ 1..26` is written
`repr q ++ digit d`. -/
def bij26 (n : Nat) : List Char :=
  if h : n = 0 then []
  else
    bij26 ((n - 1) / 26) ++ [Char.ofNat ('A'.toNat + (n - 1) % 26)]
termination_by n
decreasing_by
  exact Nat.lt_of_le_of_lt (Nat.div_le_self _ _) (Nat.pred_lt h)

/-- Modelled from the spec: `letterFor(index)` is the bijective
base-26 numeral of `index + 1`. -/
def letterFor (index : Nat) : String :=
  String.mk (bij26 (index + 1))

lemma colLetterGo_eq_reverse_bij26 :
    ∀ fuel col, col ≤ fuel → colLetterGo fuel col = (bij26 col).reverse := by
  intro fuel
  induction fuel with
  | zero =>
    intro col hcol
    interval_cases col
    rw [colLetterGo, bij26]
    simp
  | succ fuel ih =>
    intro col hcol
    match col with
    | 0 =>
      rw [colLetterGo, bij26]
      simp
    | c + 1 =>
      rw [colLetterGo, bij26]
      simp only [Nat.add_sub_cancel, dite_false, List.reverse_append,
        List.reverse_cons, List.reverse_nil, List.nil_append, List.cons_append]
      rw [ih (c / 26) (Nat.le_trans (Nat.div_le_self _ _) (Nat.le_of_succ_le_succ hcol))]
      simp

lemma col_letter_eq_letterFor (n : Nat) : col_letter n = letterFor n := by
  unfold col_letter letterFor
  rw [colLetterGo_eq_reverse_bij26 (n + 1) (n + 1) (Nat.le_refl _),
    List.reverse_reverse]

/-! ## Rows, cells, Python primitives -/

/-- A value read from the row dictionary
`dict(zip_longest(self.cols, row_list))`: `some s` for a present cell,
`none` for the `None` padding `zip_longest` inserts when the row is
shorter than the header list. -/
abbrev Cell := Option String

/-- Python truthiness of such a value: `None` and `""` are falsy, every
non-empty string is truthy. -/
def truthy : Cell → Bool
  | none => false
  | some s => !s.isEmpty

/-- Python `str()` of such a value, as used by f-string interpolation
and `str.format` substitution: `str(None) = "None"`. -/
def pyStr : Cell → String
  | none => "None"
  | some s => s

/-- The Python exceptions the campaign code can raise, plus the mail
transport failure. -/
inductive PyErr where
  | indexError
  | keyError (k : String)
  | valueError
  | typeError
  | fileNotFound (filename : String)
  | transportError
  deriving DecidableEq, Repr

/-- Surrounding-whitespace removal on a character list (what `int`
does to its argument before parsing). -/
def stripWs (l : List Char) : List Char :=
  ((l.dropWhile Char.isWhitespace).reverse.dropWhile Char.isWhitespace).reverse

/-- Python `int(s)` on a string: optional surrounding whitespace, an
optional single sign, then at least one decimal digit; anything else
raises `ValueError` (in particular `int("")` does). -/
def pyIntOfString (s : String) : Except PyErr Int :=
  let (sign, ds) : Int × List Char :=
    match stripWs s.data with
    | '-' :: rest => (-1, rest)
    | '+' :: rest => (1, rest)
    | l => (1, l)
  if ds.isEmpty || !ds.all Char.isDigit then
    .error .valueError
  else
    .ok (sign * (ds.foldl (fun a c => a * 10 + (c.toNat - '0'.toNat)) 0 : Nat))

/-- Python `int(x)` on a row-dictionary value: `int(None)` raises
`TypeError`. -/
def pyInt : Cell → Except PyErr Int
  | none => .error .typeError
  | some s => pyIntOfString s

/-- Lookup in `dict(zip_longest(cols, row_list))` by header name:
`none` when `h` is not a header at all (a Python `KeyError`),
`some c` with the cell value otherwise.  The sheet's headers are
unique (spreadsheet column names), so the first position of `h` is its
dictionary position. -/
def rowGet (cols row_list : List String) (h : String) : Option Cell :=
  (cols.indexOf? h).map fun i => row_list.get? i

/-- Reading `row[h]` as an `Except`: raising `KeyError` for an absent header. -/
def dictGet (cols row_list : List String) (h : String) : Except PyErr Cell :=
  match rowGet cols row_list h with
  | some c => .ok c
  | none => .error (.keyError h)

/-! ## The client and its observable effects -/

/-- The sheet-derived state an `EmailClient` holds after `__init__`:
the header row `cols` and the data rows `rows` (all rows after the
header, in sheet order). -/
structure Client where
  cols : List String
  rows : List (List String)

/-- The map `self.cols_mapping`: header name ↦ column letter of the header's
position, `{v: self._col_letter(i) for i, v in enumerate(cols)}`. -/
def Client.cols_mapping (cl : Client) (h : String) : Option String :=
  (cl.cols.indexOf? h).map col_letter

/-- An observable external effect of the client: a Sheets
`values().update` call (`_update_values`) or a Gmail message send. -/
inductive Action where
  | sheetWrite (range : String) (value_input_option : String)
      (values : List (List String))
  | mailSend (recipient : Cell) (subject : String) (body : String)
  deriving DecidableEq, Repr

/-- The single-cell range expression
`f"\x7bletter\x7d\x7brow\x7d:\x7bletter\x7d\x7brow\x7d"`. -/
def cellRange (letter : String) (sheet_row : Nat) : String :=
  letter ++ toString sheet_row ++ ":" ++ letter ++ toString sheet_row

/-- The effect of a trace of actions on the sheet, viewed as a map from
range expressions to cell values: each `sheetWrite` replaces the value
at its range, later writes win; mail sends do not touch the sheet. -/
def runWrites (trace : List Action) (sheet : String → List (List String)) :
    String → List (List String) :=
  trace.foldl
    (fun st a =>
      match a with
      | .sheetWrite range _ values => fun q => if q = range then values else st q
      | .mailSend _ _ _ => st)
    sheet

/-! ## Templates and rendering -/

/-- Embedding of `EmailClient._get_email_text(language, email_no)`: reads the file
`f"\x7bemail_no\x7d_\x7blanguage\x7d.txt"`.  The template store (the
working directory's files) is modelled as
`templates : String → Option String`; a missing file raises
`FileNotFoundError`.  `language` comes from the row dictionary, so it
is interpolated with Python `str()`. -/
def get_email_text (templates : String → Option String)
    (language : Cell) (email_no : Int) : Except PyErr String :=
  let filename := toString email_no ++ "_" ++ pyStr language ++ ".txt"
  match templates filename with
  | some text => .ok text
  | none => .error (.fileNotFound filename)

/-- Splits a replacement field at its closing `\x7d`: returns the field
characters and the remainder after the `\x7d`, or `none` when the field
is never closed. -/
def splitField : List Char → Option (List Char × List Char)
  | [] => none
  | c :: rest =>
    if c = '\x7d' then some ([], rest)
    else (splitField rest).map fun p => (c :: p.1, p.2)

lemma splitField_lt : ∀ {l f r : List Char},
    splitField l = some (f, r) → r.length < l.length := by
  intro l
  induction l with
  | nil => intro f r hfr; simp [splitField] at hfr
  | cons c rest ih =>
    intro f r hfr
    rw [splitField] at hfr
    by_cases hc : c = '\x7d'
    · simp only [hc, if_pos rfl, Option.some.injEq] at hfr
      rcases hfr
      simp
    · simp only [if_neg hc, Option.map_eq_some'] at hfr
      obtain ⟨⟨f', r'⟩, hsome, heq⟩ := hfr
      cases heq
      exact Nat.lt_trans (ih hsome) (Nat.lt_succ_self _)

/-- Python `text.format(name=value)`, restricted to the format-string
features plain-text email templates use: the `\x7b\x7b` and `\x7d\x7d`
escapes, and simple replacement fields `\x7bfield\x7d` without
conversion or format-spec parts.  The field `name` is replaced by
`str(value)`; any other field name raises `KeyError`; a lone `\x7d` or
an unterminated `\x7b` raises `ValueError`.  `fuel` bounds the scan;
every step consumes at least one character, so `fuel = l.length` is
always enough (`pyFormatGo_fuel` below). -/
def pyFormatGo (value : Cell) : Nat → List Char → Except PyErr (List Char)
  | _, [] => .ok []
  | 0, _ :: _ => .error .valueError
  | fuel + 1, c :: rest =>
    if c = '\x7b' then
      if rest.head? = some '\x7b' then
        (pyFormatGo value fuel rest.tail).map (fun out => '\x7b' :: out)
      else
        match splitField rest with
        | none => .error .valueError
        | some (f, r) =>
          if String.mk f = "name" then
            (pyFormatGo value fuel r).map (fun out => (pyStr value).data ++ out)
          else .error (.keyError (String.mk f))
    else if c = '\x7d' then
      if rest.head? = some '\x7d' then
        (pyFormatGo value fuel rest.tail).map (fun out => '\x7d' :: out)
      else .error .valueError
    else
      (pyFormatGo value fuel rest).map (fun out => c :: out)

/-- Python `text.format(name=value)` on strings. -/
def pyFormat (value : Cell) (text : String) : Except PyErr String :=
  (pyFormatGo value text.data.length text.data).map String.mk

/-- Embedding of `EmailClient._format_email_text(row_no)`: rebuilds the row
dictionary, reads `row["Language"]` and `int(row["Emails Sent"])`,
loads the template for `(emails-sent step, language)`, and renders it
with `text.format(name=row["Contact Name"])`. -/
def format_email_text (cl : Client) (templates : String → Option String)
    (row_no : Nat) : Except PyErr String :=
  match cl.rows.get? row_no with
  | none => .error .indexError
  | some row_list =>
    match dictGet cl.cols row_list "Language" with
    | .error e => .error e
    | .ok language =>
      match dictGet cl.cols row_list "Emails Sent" with
      | .error e => .error e
      | .ok emails_cell =>
        match pyInt emails_cell with
        | .error e => .error e
        | .ok email_no =>
          match get_email_text templates language email_no with
          | .error e => .error e
          | .ok text =>
            match dictGet cl.cols row_list "Contact Name" with
            | .error e => .error e
            | .ok name_cell => pyFormat name_cell text

/-! ## Sending and the post-send sheet update -/

/-- Embedding of `EmailClient._send_email(subject, row_no)`.  In source order: index
into `self.rows` (IndexError when out of range), build the row
dictionary, render the body via `_format_email_text` (which can raise
before any I/O), read `row["Contact email"]` for the message headers,
then perform the one Gmail API send.  The transport outcome of that
send is modelled by `mail_result` (`.ok id` returns the message id,
`.error` propagates the raised transport error).  Returns the trace of
external effects together with the Python result. -/
def send_email (cl : Client) (templates : String → Option String)
    (mail_result : Except PyErr String) (subject : String) (row_no : Nat) :
    List Action × Except PyErr String :=
  match cl.rows.get? row_no with
  | none => ([], .error .indexError)
  | some row_list =>
    match format_email_text cl templates row_no with
    | .error e => ([], .error e)
    | .ok body =>
      match rowGet cl.cols row_list "Contact email" with
      | none => ([], .error (.keyError "Contact email"))
      | some recipient =>
        ([Action.mailSend recipient subject body], mail_result)

/-- Embedding of `EmailClient._after_email(row_no)`.  `today` is the formatted
`datetime.now().strftime("%d.%m.%y")` string.  Writes the current date
to the "Approached (Date)" cell when that cell is falsy, then writes
`0 if not emails_sent else int(emails_sent) + 1` to the "Emails Sent"
cell; each write is a separate `_update_values` call on the single-cell
range at `sheet_row = row_no + 2`.  Returns the ordered trace of sheet
writes, or the raised error.  The new count is a Python `int`,
serialised decimally in the request body. -/
def after_email (cl : Client) (today : String) (row_no : Nat) :
    Except PyErr (List Action) :=
  match cl.rows.get? row_no with
  | none => .error .indexError
  | some row_list =>
    let sheet_row := row_no + 2
    match dictGet cl.cols row_list "Approached (Date)" with
    | .error e => .error e
    | .ok approached_date =>
      let dateWrites : Except PyErr (List Action) :=
        if truthy approached_date then .ok []
        else
          match cl.cols_mapping "Approached (Date)" with
          | none => .error (.keyError "Approached (Date)")
          | some date_letter =>
            .ok [Action.sheetWrite (cellRange date_letter sheet_row)
              "USER_ENTERED" [[today]]]
      match dateWrites with
      | .error e => .error e
      | .ok dws =>
        match dictGet cl.cols row_list "Emails Sent" with
        | .error e => .error e
        | .ok emails_sent =>
          let new_count : Except PyErr Int :=
            if truthy emails_sent then (pyInt emails_sent).map (· + 1)
            else .ok 0
          match new_count with
          | .error e => .error e
          | .ok n =>
            match cl.cols_mapping "Emails Sent" with
            | none => .error (.keyError "Emails Sent")
            | some emails_letter =>
              .ok (dws ++ [Action.sheetWrite (cellRange emails_letter sheet_row)
                "USER_ENTERED" [[toString n]]])

/-! ## Helper lemmas: column letters are injective -/

lemma indexOf?_get? {l : List String} {a : String} {i : Nat}
    (h : l.indexOf? a = some i) : l.get? i = some a := by
  induction l generalizing i with
  | nil => simp at h
  | cons x xs ih =>
    rw [List.indexOf?_cons] at h
    cases hxa : x == a with
    | true =>
      simp only [hxa, if_pos, Option.some.injEq] at h
      subst h
      simp [beq_iff_eq.mp hxa]
    | false =>
      simp only [hxa, Bool.false_eq_true, if_false, Option.map_eq_some'] at h
      obtain ⟨j, hj, rfl⟩ := h
      simpa using ih hj

lemma bij26_zero : bij26 0 = [] := by
  rw [bij26]
  simp

lemma bij26_succ (n : Nat) :
    bij26 (n + 1) = bij26 (n / 26) ++ [Char.ofNat ('A'.toNat + n % 26)] := by
  rw [bij26]
  simp

lemma charDigit_inj :
    ∀ i < 26, ∀ j < 26,
      Char.ofNat ('A'.toNat + i) = Char.ofNat ('A'.toNat + j) → i = j := by
  decide

lemma bij26_inj : ∀ a b : Nat, bij26 a = bij26 b → a = b := by
  intro a
  induction a using Nat.strong_induction_on with
  | _ a ih =>
    intro b h
    match a, b with
    | 0, 0 => rfl
    | 0, b + 1 =>
      rw [bij26_zero, bij26_succ] at h
      simp at h
    | a + 1, 0 =>
      rw [bij26_zero, bij26_succ] at h
      simp at h
    | a + 1, b + 1 =>
      rw [bij26_succ, bij26_succ] at h
      obtain ⟨h1, h2⟩ := List.append_inj' h (by simp)
      simp only [List.cons.injEq, and_true] at h2
      have hmod : a % 26 = b % 26 :=
        charDigit_inj _ (Nat.mod_lt _ (by norm_num)) _ (Nat.mod_lt _ (by norm_num)) h2
      have hdiv : a / 26 = b / 26 :=
        ih (a / 26)
          (Nat.lt_of_le_of_lt (Nat.div_le_self _ _) (Nat.lt_succ_self _)) _ h1
      omega

lemma col_letter_inj : Function.Injective col_letter := by
  intro m n h
  rw [col_letter_eq_letterFor, col_letter_eq_letterFor] at h
  unfold letterFor at h
  have hdata : bij26 (m + 1) = bij26 (n + 1) := congrArg String.data h
  exact Nat.succ_injective (bij26_inj _ _ hdata)

lemma cols_mapping_ne {cl : Client} {h1 h2 L1 L2 : String} (hne : h1 ≠ h2)
    (m1 : cl.cols_mapping h1 = some L1) (m2 : cl.cols_mapping h2 = some L2) :
    L1 ≠ L2 := by
  unfold Client.cols_mapping at m1 m2
  obtain ⟨i1, hi1, hL1⟩ := Option.map_eq_some'.mp m1
  obtain ⟨i2, hi2, hL2⟩ := Option.map_eq_some'.mp m2
  intro hL
  have hi : i1 = i2 := col_letter_inj (by rw [hL1, hL2, hL])
  apply hne
  have g1 := indexOf?_get? hi1
  have g2 := indexOf?_get? hi2
  rw [hi, g2] at g1
  exact (Option.some.injEq _ _ ▸ g1).symm

lemma cellRange_inj {L1 L2 : String} {r : Nat}
    (h : cellRange L1 r = cellRange L2 r) : L1 = L2 := by
  unfold cellRange at h
  have hlen := congrArg String.length h
  simp only [String.length_append] at hlen
  have hL : L1.length = L2.length := by omega
  have hdata := congrArg String.data h
  simp only [String.data_append] at hdata
  have hd : L1.data = L2.data := by
    have hlen' : L1.data.length = L2.data.length := hL
    simp only [List.append_assoc] at hdata
    exact (List.append_inj hdata hlen').1
  exact congrArg String.mk hd

/-! ## Characterising the post-send update -/



lemma rowGet_cols_mapping {cl : Client} {row_list : List String} {h : String} {c : Cell}
    (hg : rowGet cl.cols row_list h = some c) :
    ∃ L, cl.cols_mapping h = some L := by
  unfold rowGet at hg
  obtain ⟨i, hi, _⟩ := Option.map_eq_some'.mp hg
  exact ⟨col_letter i, by unfold Client.cols_mapping; rw [hi]; rfl⟩

lemma after_email_ok_elim {cl : Client} {today : String} {row_no : Nat} {tr : List Action}
    (h : after_email cl today row_no = .ok tr) :
    ∃ (row_list : List String) (approached emails : Cell) (dL eL : String) (n : Int),
      cl.rows.get? row_no = some row_list ∧
      rowGet cl.cols row_list "Approached (Date)" = some approached ∧
      rowGet cl.cols row_list "Emails Sent" = some emails ∧
      cl.cols_mapping "Approached (Date)" = some dL ∧
      cl.cols_mapping "Emails Sent" = some eL ∧
      (if truthy emails then (pyInt emails).map (· + 1) = .ok n else n = 0) ∧
      tr = (if truthy approached then ([] : List Action)
            else [Action.sheetWrite (cellRange dL (row_no + 2)) "USER_ENTERED" [[today]]])
          ++ [Action.sheetWrite (cellRange eL (row_no + 2)) "USER_ENTERED" [[toString n]]] := by
  unfold after_email at h
  cases hrow : cl.rows.get? row_no with
  | none => rw [hrow] at h; cases h
  | some row_list =>
  rw [hrow] at h
  dsimp only at h
  cases happ : dictGet cl.cols row_list "Approached (Date)" with
  | error e => rw [happ] at h; cases h
  | ok approached =>
  rw [happ] at h
  dsimp only at h
  have happ' : rowGet cl.cols row_list "Approached (Date)" = some approached := by
    unfold dictGet at happ
    cases hg : rowGet cl.cols row_list "Approached (Date)" with
    | none => rw [hg] at happ; cases happ
    | some c => rw [hg] at happ; cases happ; rfl
  obtain ⟨dL, hdL⟩ := rowGet_cols_mapping happ'
  by_cases htru : truthy approached = true
  · rw [if_pos htru] at h
    cases hem : dictGet cl.cols row_list "Emails Sent" with
    | error e => rw [hem] at h; cases h
    | ok emails =>
    rw [hem] at h
    dsimp only at h
    have hem' : rowGet cl.cols row_list "Emails Sent" = some emails := by
      unfold dictGet at hem
      cases hg : rowGet cl.cols row_list "Emails Sent" with
      | none => rw [hg] at hem; cases hem
      | some c => rw [hg] at hem; cases hem; rfl
    by_cases hte : truthy emails = true
    · rw [if_pos hte] at h
      cases hpy : (pyInt emails).map (· + 1 : Int → Int) with
      | error e => rw [hpy] at h; cases h
      | ok n =>
      rw [hpy] at h
      dsimp only at h
      cases hmap : cl.cols_mapping "Emails Sent" with
      | none => rw [hmap] at h; cases h
      | some eL =>
      rw [hmap] at h
      dsimp only at h
      cases h
      exact ⟨row_list, approached, emails, dL, eL, n, rfl, happ', hem', hdL, rfl,
        by rw [if_pos hte]; exact hpy, by rw [if_pos htru]⟩
    · rw [if_neg hte] at h
      cases hmap : cl.cols_mapping "Emails Sent" with
      | none => rw [hmap] at h; cases h
      | some eL =>
      rw [hmap] at h
      dsimp only at h
      cases h
      exact ⟨row_list, approached, emails, dL, eL, 0, rfl, happ', hem', hdL, rfl,
        by rw [if_neg hte], by rw [if_pos htru]⟩
  · rw [if_neg htru] at h
    rw [hdL] at h
    dsimp only at h
    cases hem : dictGet cl.cols row_list "Emails Sent" with
    | error e => rw [hem] at h; cases h
    | ok emails =>
    rw [hem] at h
    dsimp only at h
    have hem' : rowGet cl.cols row_list "Emails Sent" = some emails := by
      unfold dictGet at hem
      cases hg : rowGet cl.cols row_list "Emails Sent" with
      | none => rw [hg] at hem; cases hem
      | some c => rw [hg] at hem; cases hem; rfl
    by_cases hte : truthy emails = true
    · rw [if_pos hte] at h
      cases hpy : (pyInt emails).map (· + 1 : Int → Int) with
      | error e => rw [hpy] at h; cases h
      | ok n =>
      rw [hpy] at h
      dsimp only at h
      cases hmap : cl.cols_mapping "Emails Sent" with
      | none => rw [hmap] at h; cases h
      | some eL =>
      rw [hmap] at h
      dsimp only at h
      cases h
      exact ⟨row_list, approached, emails, dL, eL, n, rfl, happ', hem', hdL, rfl,
        by rw [if_pos hte]; exact hpy, by rw [if_neg htru]⟩
    · rw [if_neg hte] at h
      cases hmap : cl.cols_mapping "Emails Sent" with
      | none => rw [hmap] at h; cases h
      | some eL =>
      rw [hmap] at h
      dsimp only at h
      cases h
      exact ⟨row_list, approached, emails, dL, eL, 0, rfl, happ', hem', hdL, rfl,
        by rw [if_neg hte], by rw [if_neg htru]⟩


/-! ## Format-string lemmas -/

lemma pyFormatGo_nil (v : Cell) (fuel : Nat) : pyFormatGo v fuel [] = .ok [] := by
  cases fuel <;> rfl

lemma pyFormatGo_cons (v : Cell) (fuel : Nat) (c : Char) (rest : List Char) :
    pyFormatGo v (fuel + 1) (c :: rest) =
      if c = '\x7b' then
        if rest.head? = some '\x7b' then
          (pyFormatGo v fuel rest.tail).map (fun out => '\x7b' :: out)
        else
          match splitField rest with
          | none => .error .valueError
          | some (f, r) =>
            if String.mk f = "name" then
              (pyFormatGo v fuel r).map (fun out => (pyStr v).data ++ out)
            else .error (.keyError (String.mk f))
      else if c = '\x7d' then
        if rest.head? = some '\x7d' then
          (pyFormatGo v fuel rest.tail).map (fun out => '\x7d' :: out)
        else .error .valueError
      else
        (pyFormatGo v fuel rest).map (fun out => c :: out) := rfl

lemma pyFormatGo_fuel (v : Cell) :
    ∀ fuel₁ fuel₂ l, l.length ≤ fuel₁ → l.length ≤ fuel₂ →
      pyFormatGo v fuel₁ l = pyFormatGo v fuel₂ l := by
  intro fuel₁
  induction fuel₁ with
  | zero =>
    intro fuel₂ l h1 _
    have : l = [] := List.length_eq_zero.mp (Nat.le_zero.mp h1)
    subst this
    rw [pyFormatGo_nil, pyFormatGo_nil]
  | succ f ih =>
    intro fuel₂ l h1 h2
    match l with
    | [] => rw [pyFormatGo_nil, pyFormatGo_nil]
    | c :: rest =>
      match fuel₂ with
      | 0 => simp at h2
      | f₂ + 1 =>
        rw [pyFormatGo_cons, pyFormatGo_cons]
        have hrest : rest.length ≤ f := Nat.le_of_succ_le_succ h1
        have hrest₂ : rest.length ≤ f₂ := Nat.le_of_succ_le_succ h2
        have htail : rest.tail.length ≤ rest.length := by
          cases rest <;> simp
        by_cases hc : c = '\x7b'
        · rw [if_pos hc, if_pos hc]
          by_cases hh : rest.head? = some '\x7b'
          · rw [if_pos hh, if_pos hh,
              ih f₂ rest.tail (Nat.le_trans htail hrest) (Nat.le_trans htail hrest₂)]
          · rw [if_neg hh, if_neg hh]
            cases hsp : splitField rest with
            | none => rfl
            | some p =>
              obtain ⟨fld, r⟩ := p
              have hr : r.length < rest.length := splitField_lt hsp
              dsimp only
              rw [ih f₂ r (Nat.le_trans (Nat.le_of_lt hr) hrest)
                (Nat.le_trans (Nat.le_of_lt hr) hrest₂)]
        · rw [if_neg hc, if_neg hc]
          by_cases hd : c = '\x7d'
          · rw [if_pos hd, if_pos hd]
            by_cases hh : rest.head? = some '\x7d'
            · rw [if_pos hh, if_pos hh,
                ih f₂ rest.tail (Nat.le_trans htail hrest) (Nat.le_trans htail hrest₂)]
            · rw [if_neg hh, if_neg hh]
          · rw [if_neg hd, if_neg hd, ih f₂ rest hrest hrest₂]

lemma pyFormatGo_plain_run (v : Cell) :
    ∀ (pre l : List Char) (fuel : Nat),
      (∀ c ∈ pre, c ≠ '\x7b' ∧ c ≠ '\x7d') →
      pre.length + l.length ≤ fuel →
      pyFormatGo v fuel (pre ++ l) =
        (pyFormatGo v (fuel - pre.length) l).map (fun out => pre ++ out) := by
  intro pre
  induction pre with
  | nil =>
    intro l fuel _ _
    simp only [List.nil_append, List.length_nil, Nat.sub_zero]
    cases pyFormatGo v fuel l <;> simp [Except.map]
  | cons c pre ih =>
    intro l fuel hpre hfuel
    match fuel with
    | 0 => simp at hfuel
    | f + 1 =>
      have hc := hpre c (by simp)
      rw [List.cons_append, pyFormatGo_cons, if_neg hc.1, if_neg hc.2,
        ih l f (fun x hx => hpre x (by simp [hx])) (by simp at hfuel; omega)]
      have : f + 1 - (c :: pre).length = f - pre.length := by simp
      rw [this]
      cases pyFormatGo v (f - pre.length) l <;> simp [Except.map]

lemma splitField_spec :
    ∀ (fld rest : List Char), (∀ c ∈ fld, c ≠ '\x7d') →
      splitField (fld ++ '\x7d' :: rest) = some (fld, rest) := by
  intro fld
  induction fld with
  | nil =>
    intro rest _
    rw [List.nil_append, splitField]
    simp
  | cons c fld ih =>
    intro rest hfld
    rw [List.cons_append, splitField,
      if_neg (hfld c (by simp)), ih rest (fun x hx => hfld x (by simp [hx]))]
    rfl

lemma pyFormatGo_field (v : Cell) (fld rest : List Char) (fuel : Nat)
    (hfld : ∀ c ∈ fld, c ≠ '\x7d')
    (hhead : (fld ++ '\x7d' :: rest).head? ≠ some '\x7b') :
    pyFormatGo v (fuel + 1) ('\x7b' :: (fld ++ '\x7d' :: rest)) =
      if String.mk fld = "name" then
        (pyFormatGo v fuel rest).map (fun out => (pyStr v).data ++ out)
      else .error (.keyError (String.mk fld)) := by
  rw [pyFormatGo_cons, if_pos rfl, if_neg hhead, splitField_spec fld rest hfld]



lemma pyFormat_name_subst (v : Cell) (pre rest : List Char)
    (hpre : ∀ c ∈ pre, c ≠ '\x7b' ∧ c ≠ '\x7d') :
    pyFormat v (String.mk (pre ++ '\x7b' :: ('n' :: 'a' :: 'm' :: 'e' :: '\x7d' :: rest))) =
      (pyFormat v (String.mk rest)).map
        (fun out => String.mk (pre ++ (pyStr v).data ++ out.data)) := by
  show (pyFormatGo v (pre ++ '\x7b' :: ('n' :: 'a' :: 'm' :: 'e' :: '\x7d' :: rest)).length
      (pre ++ '\x7b' :: ('n' :: 'a' :: 'm' :: 'e' :: '\x7d' :: rest))).map String.mk =
    ((pyFormatGo v rest.length rest).map String.mk).map
      (fun out => String.mk (pre ++ (pyStr v).data ++ out.data))
  rw [pyFormatGo_plain_run v pre _ _ hpre (by simp)]
  have hlen : (pre ++ '\x7b' :: ('n' :: 'a' :: 'm' :: 'e' :: '\x7d' :: rest)).length - pre.length
      = (5 + rest.length) + 1 := by
    simp [List.length_append]
    omega
  rw [hlen]
  rw [show ('n' :: 'a' :: 'm' :: 'e' :: '\x7d' :: rest)
        = (['n', 'a', 'm', 'e'] ++ '\x7d' :: rest) from rfl]
  rw [pyFormatGo_field v ['n', 'a', 'm', 'e'] rest (5 + rest.length) (by decide) (by simp)]
  rw [if_pos rfl]
  rw [pyFormatGo_fuel v (5 + rest.length) rest.length rest (by omega) (Nat.le_refl _)]
  cases pyFormatGo v rest.length rest <;> simp [Except.map]

lemma pyFormat_other_field (v : Cell) (pre fld rest : List Char)
    (hpre : ∀ c ∈ pre, c ≠ '\x7b' ∧ c ≠ '\x7d')
    (hfld : ∀ c ∈ fld, c ≠ '\x7d')
    (hhead : (fld ++ '\x7d' :: rest).head? ≠ some '\x7b')
    (hname : String.mk fld ≠ "name") :
    pyFormat v (String.mk (pre ++ '\x7b' :: (fld ++ '\x7d' :: rest))) =
      .error (.keyError (String.mk fld)) := by
  show (pyFormatGo v (pre ++ '\x7b' :: (fld ++ '\x7d' :: rest)).length
      (pre ++ '\x7b' :: (fld ++ '\x7d' :: rest))).map String.mk = _
  rw [pyFormatGo_plain_run v pre _ _ hpre (by simp)]
  have hlen : (pre ++ '\x7b' :: (fld ++ '\x7d' :: rest)).length - pre.length
      = (fld.length + rest.length + 1) + 1 := by
    simp [List.length_append]
    omega
  rw [hlen, pyFormatGo_field v fld rest (fld.length + rest.length + 1) hfld hhead,
    if_neg hname]
  rfl



/-! ## Claim theorems -/

/-- C6: `_col_letter` with `start_index = 0` implements the bijective
base-26 spreadsheet encoding (digits 'A'..'Z', no zero digit): it
agrees with the spec-side `letterFor` on every non-negative index, is
injective, and maps 0→"A", 25→"Z", 26→"AA", 27→"AB", 701→"ZZ",
702→"AAA". -/
theorem C6_col_letter_bijective_base26 :
    (∀ n : Nat, col_letter n = letterFor n) ∧
    Function.Injective col_letter ∧
    col_letter 0 = "A" ∧ col_letter 25 = "Z" ∧ col_letter 26 = "AA" ∧
    col_letter 27 = "AB" ∧ col_letter 701 = "ZZ" ∧ col_letter 702 = "AAA" :=
  ⟨col_letter_eq_letterFor, col_letter_inj, rfl, rfl, rfl, rfl, rfl, rfl⟩

/-- C2 fails on the code: on the spec's §8 row (empty "Emails Sent"
cell, empty "Approached (Date)" cell) the post-send update writes the
value 0 to the Emails Sent cell — `0 if not emails_sent else
int(emails_sent) + 1` — not the claimed current-value-plus-one, which
would be 1.  (The date write is also shown, as the code issues it.) -/
theorem C2_after_email_empty_cell_writes_zero :
    after_email
      ⟨["Contact email", "Contact Name", "Language", "Emails Sent", "Approached (Date)"],
       [["a@x.com", "Ana", "EN", "", ""]]⟩
      "12.10.25" 0
    = .ok [Action.sheetWrite "E2:E2" "USER_ENTERED" [["12.10.25"]],
           Action.sheetWrite "D2:D2" "USER_ENTERED" [["0"]]] := rfl

/-- C3 fails on the code: on a row whose "Emails Sent" cell is empty,
`_format_email_text` evaluates `int("")`, which raises `ValueError`
before any template is read, so `_send_email` raises without sending —
even though the step-0 template for the row's language exists. -/
theorem C3_empty_cell_raises_before_send :
    send_email
      ⟨["Contact email", "Contact Name", "Language", "Emails Sent", "Approached (Date)"],
       [["a@x.com", "Ana", "EN", "", ""]]⟩
      (fun f => if f = "0_EN.txt" then some "Hi \x7bname\x7d!" else none)
      (.ok "msgid") "subject" 0
    = ([], .error .valueError) := rfl

/-- C4: `_send_email` performs no sheet I/O: whatever the row, the
template store, and the transport outcome, its effect trace contains no
`values().update` call, so running the trace leaves every sheet cell
unchanged — in particular after a failed send the row's sheet state is
untouched. -/
theorem C4_send_email_no_sheet_writes (cl : Client)
    (templates : String → Option String) (mail_result : Except PyErr String)
    (subject : String) (row_no : Nat) :
    (∀ a ∈ (send_email cl templates mail_result subject row_no).1,
       ∀ range vio vals, a ≠ Action.sheetWrite range vio vals) ∧
    (∀ sheet, runWrites (send_email cl templates mail_result subject row_no).1 sheet
       = sheet) := by
  unfold send_email
  cases cl.rows.get? row_no with
  | none => exact ⟨by simp, fun sheet => rfl⟩
  | some row_list =>
    dsimp only
    cases format_email_text cl templates row_no with
    | error e => exact ⟨by simp, fun sheet => rfl⟩
    | ok body =>
      dsimp only
      cases rowGet cl.cols row_list "Contact email" with
      | none => exact ⟨by simp, fun sheet => rfl⟩
      | some recipient =>
        dsimp only
        constructor
        · intro a ha range vio vals
          simp only [List.mem_singleton] at ha
          subst ha
          simp
        · intro sheet
          rfl



/-- C5: when the template file for the row's (language, emails-sent
step) pair does not exist, `_send_email` raises `FileNotFoundError`
from `_format_email_text` — which runs before the Gmail service is
invoked — so its effect trace is empty: no mail is sent and no cell is
written; the row is skipped. -/
theorem C5_missing_template_skips_row (cl : Client)
    (templates : String → Option String) (mail_result : Except PyErr String)
    (subject : String) (row_no : Nat) (row_list : List String)
    (language emails : Cell) (n : Int)
    (hrow : cl.rows.get? row_no = some row_list)
    (hlang : rowGet cl.cols row_list "Language" = some language)
    (hemail : rowGet cl.cols row_list "Emails Sent" = some emails)
    (hn : pyInt emails = .ok n)
    (htmpl : templates (toString n ++ "_" ++ pyStr language ++ ".txt") = none) :
    send_email cl templates mail_result subject row_no
      = ([], .error (.fileNotFound (toString n ++ "_" ++ pyStr language ++ ".txt"))) := by
  have hfmt : format_email_text cl templates row_no
      = .error (.fileNotFound (toString n ++ "_" ++ pyStr language ++ ".txt")) := by
    unfold format_email_text
    rw [hrow]
    dsimp only
    unfold dictGet
    rw [hlang]
    dsimp only
    rw [hemail]
    dsimp only
    rw [hn]
    dsimp only
    unfold get_email_text
    dsimp only
    rw [htmpl]
  unfold send_email
  rw [hrow]
  dsimp only
  rw [hfmt]

/-- C1: in the post-send update the "Approached (Date)" cell is written
only when the row's current value there is absent/empty: when the date
is already present (truthy), the trace of `_after_email` contains no
write to the date cell's range, and running the trace leaves that cell
of the sheet unchanged — an existing date is never overwritten. -/
theorem C1_approached_date_never_overwritten (cl : Client) (today : String)
    (row_no : Nat) (tr : List Action) (row_list : List String)
    (approached : Cell) (dL : String)
    (hok : after_email cl today row_no = .ok tr)
    (hrow : cl.rows.get? row_no = some row_list)
    (happ : rowGet cl.cols row_list "Approached (Date)" = some approached)
    (hpres : truthy approached = true)
    (hdL : cl.cols_mapping "Approached (Date)" = some dL) :
    (∀ vio vals, Action.sheetWrite (cellRange dL (row_no + 2)) vio vals ∉ tr) ∧
    (∀ sheet, runWrites tr sheet (cellRange dL (row_no + 2))
       = sheet (cellRange dL (row_no + 2))) := by
  obtain ⟨rl, app, em, dL', eL, n, hrow', happ', hem', hdL', heL', hn, htr⟩ :=
    after_email_ok_elim hok
  rw [hrow] at hrow'
  injection hrow' with hrl
  subst hrl
  rw [happ] at happ'
  injection happ' with happeq
  subst happeq
  rw [hdL] at hdL'
  injection hdL' with hdLeq
  subst hdLeq
  rw [if_pos hpres, List.nil_append] at htr
  have hne : dL ≠ eL :=
    cols_mapping_ne (by decide : ("Approached (Date)" : String) ≠ "Emails Sent") hdL heL'
  have hrange : cellRange dL (row_no + 2) ≠ cellRange eL (row_no + 2) :=
    fun hcontra => hne (cellRange_inj hcontra)
  constructor
  · intro vio vals hmem
    rw [htr] at hmem
    simp only [List.mem_singleton, Action.sheetWrite.injEq] at hmem
    exact hrange hmem.1
  · intro sheet
    rw [htr]
    unfold runWrites
    simp only [List.foldl]
    rw [if_neg hrange]

/-- C7: every sheet write issued by `_after_email` addresses sheet row
`row_no + 2` as a single-cell range `"{letter}{row}:{letter}{row}"`
(written here as the explicit concatenation), with the column letter
taken from `cols_mapping` at the written header's position, and is a
`USER_ENTERED` update. -/
theorem C7_after_email_single_cell_ranges (cl : Client) (today : String)
    (row_no : Nat) (tr : List Action)
    (hok : after_email cl today row_no = .ok tr) :
    ∀ a ∈ tr, ∃ (hdr letter : String) (vals : List (List String)),
      (hdr = "Approached (Date)" ∨ hdr = "Emails Sent") ∧
      cl.cols_mapping hdr = some letter ∧
      a = Action.sheetWrite
        (letter ++ toString (row_no + 2) ++ ":" ++ letter ++ toString (row_no + 2))
        "USER_ENTERED" vals := by
  obtain ⟨rl, app, em, dL, eL, n, hrow', happ', hem', hdL', heL', hn, htr⟩ :=
    after_email_ok_elim hok
  intro a ha
  rw [htr] at ha
  by_cases htru : truthy app = true
  · rw [if_pos htru, List.nil_append] at ha
    simp only [List.mem_singleton] at ha
    exact ⟨"Emails Sent", eL, [[toString n]], Or.inr rfl, heL', by rw [ha]; rfl⟩
  · rw [if_neg htru, List.singleton_append] at ha
    rcases List.mem_cons.mp ha with h1 | h1
    · exact ⟨"Approached (Date)", dL, [[today]], Or.inl rfl, hdL', by rw [h1]; rfl⟩
    · simp only [List.mem_singleton] at h1
      exact ⟨"Emails Sent", eL, [[toString n]], Or.inr rfl, heL', by rw [h1]; rfl⟩

/-- C10: in every successful `_after_email` call the Emails Sent cell
write is issued exactly once and last: when the row's Approached (Date)
value is truthy the trace is just the count write; when it is
absent/empty the trace is the date write followed by the count write. -/
theorem C10_count_write_once_and_last (cl : Client) (today : String)
    (row_no : Nat) (tr : List Action) (row_list : List String)
    (approached : Cell)
    (hok : after_email cl today row_no = .ok tr)
    (hrow : cl.rows.get? row_no = some row_list)
    (happ : rowGet cl.cols row_list "Approached (Date)" = some approached) :
    ∃ (dL eL : String) (n : Int),
      cl.cols_mapping "Approached (Date)" = some dL ∧
      cl.cols_mapping "Emails Sent" = some eL ∧
      (truthy approached = true →
        tr = [Action.sheetWrite (cellRange eL (row_no + 2)) "USER_ENTERED"
          [[toString n]]]) ∧
      (truthy approached = false →
        tr = [Action.sheetWrite (cellRange dL (row_no + 2)) "USER_ENTERED" [[today]],
              Action.sheetWrite (cellRange eL (row_no + 2)) "USER_ENTERED"
                [[toString n]]]) ∧
      tr.getLast? = some (Action.sheetWrite (cellRange eL (row_no + 2)) "USER_ENTERED"
        [[toString n]]) ∧
      (tr.filter (fun a =>
         a == Action.sheetWrite (cellRange eL (row_no + 2)) "USER_ENTERED"
           [[toString n]])).length = 1 := by
  obtain ⟨rl, app, em, dL, eL, n, hrow', happ', hem', hdL', heL', hn, htr⟩ :=
    after_email_ok_elim hok
  rw [hrow] at hrow'
  injection hrow' with hrl
  subst hrl
  rw [happ] at happ'
  injection happ' with happeq
  subst happeq
  have hne : dL ≠ eL :=
    cols_mapping_ne (by decide : ("Approached (Date)" : String) ≠ "Emails Sent") hdL' heL'
  have hwne : Action.sheetWrite (cellRange dL (row_no + 2)) "USER_ENTERED" [[today]]
      ≠ Action.sheetWrite (cellRange eL (row_no + 2)) "USER_ENTERED" [[toString n]] := by
    intro hc
    injection hc with h1 _ _
    exact hne (cellRange_inj h1)
  refine ⟨dL, eL, n, hdL', heL', ?_, ?_, ?_, ?_⟩
  · intro htru
    rw [htr, if_pos htru, List.nil_append]
  · intro htru
    rw [htr, if_neg (by rw [htru]; exact Bool.false_ne_true), List.singleton_append]
  · by_cases htru : truthy approached = true
    · rw [htr, if_pos htru, List.nil_append]
      rfl
    · rw [htr, if_neg htru, List.singleton_append]
      rfl
  · by_cases htru : truthy approached = true
    · rw [htr, if_pos htru, List.nil_append]
      simp
    · rw [htr, if_neg htru, List.singleton_append]
      simp only [List.filter, beq_self_eq_true]
      rw [beq_eq_false_iff_ne.mpr hwne]
      simp



/-- C8 fails on the code: `text.format(name=...)` raises `KeyError` on
a template containing a placeholder other than `name` (here
`\x7bcompany\x7d`), instead of leaving it verbatim in an `ok` result. -/
theorem C8_counterexample_other_placeholder_raises :
    pyFormat (some "Ana") "Hi \x7bname\x7d, from \x7bcompany\x7d"
      = .error (.keyError "company") := rfl

/-- C8 amended: rendering substitutes every `name` replacement field
with `str(value)`; a simple replacement field with any other
(non-positional, attribute/index/conversion/spec-free) name makes
`format` raise `KeyError` naming that field, rather than leaving it
verbatim. -/
theorem C8_name_substituted_other_fields_raise :
    (∀ (value : Cell) (pre rest : List Char),
       (∀ c ∈ pre, c ≠ '\x7b' ∧ c ≠ '\x7d') →
       pyFormat value
           (String.mk (pre ++ '\x7b' :: ('n' :: 'a' :: 'm' :: 'e' :: '\x7d' :: rest)))
         = (pyFormat value (String.mk rest)).map
             (fun out => String.mk (pre ++ (pyStr value).data ++ out.data))) ∧
    (∀ (value : Cell) (pre fld rest : List Char),
       (∀ c ∈ pre, c ≠ '\x7b' ∧ c ≠ '\x7d') →
       (∀ c ∈ fld, c ≠ '\x7b' ∧ c ≠ '\x7d' ∧ c ≠ '.' ∧ c ≠ '[' ∧ c ≠ '!' ∧ c ≠ ':') →
       fld ≠ [] →
       ¬(∀ c ∈ fld, c.isDigit = true) →
       String.mk fld ≠ "name" →
       pyFormat value (String.mk (pre ++ '\x7b' :: (fld ++ '\x7d' :: rest)))
         = .error (.keyError (String.mk fld))) := by
  constructor
  · exact pyFormat_name_subst
  · intro value pre fld rest hpre hfld _hne _hdig hname
    refine pyFormat_other_field value pre fld rest hpre
      (fun c hc => (hfld c hc).2.1) ?_ hname
    cases fld with
    | nil => simp
    | cons c fl =>
      simp only [List.cons_append, List.head?_cons, ne_eq, Option.some.injEq]
      exact (hfld c (by simp)).1

/-- Instantiation of `C8_name_substituted_other_fields_raise`: the
field `company` raises `KeyError "company"`. -/
theorem C8_witness :
    pyFormat (some "Ana")
        (String.mk ("Hello ".data ++ '\x7b' :: ("company".data ++ '\x7d' :: [])))
      = .error (.keyError (String.mk "company".data)) :=
  C8_name_substituted_other_fields_raise.2 (some "Ana") "Hello ".data "company".data []
    (by decide) (by decide) (by decide) (by decide) (by decide)

/-- C9 fails on the code: on a row shorter than the header list the
view itself does not fail, but the absent "Contact Name" cell is the
`zip_longest` padding `None`, and `format(name=None)` interpolates
`str(None) = "None"` — not the empty string. -/
theorem C9_counterexample_absent_name_is_None :
    format_email_text
        ⟨["Contact email", "Language", "Emails Sent", "Contact Name",
          "Approached (Date)"],
         [["a@x.com", "EN", "0"]]⟩
        (fun f => if f = "0_EN.txt" then some "Hi \x7bname\x7d!" else none) 0
      = .ok "Hi None!" ∧ ("Hi None!" : String) ≠ "Hi !" :=
  ⟨rfl, by decide⟩

/-- C9 amended: building the header→value view never fails — every
header resolves, a header whose position is beyond the row's length
resolving to the absent value `none` — and an absent Contact Name is
interpolated into the template as the string `"None"` (Python
`str(None)`), not as the empty string. -/
theorem C9_short_rows_absent_name_renders_None :
    (∀ (cols row_list : List String) (h : String), h ∈ cols →
       (rowGet cols row_list h).isSome = true) ∧
    (∀ (cols row_list : List String) (i : Nat),
       cols.indexOf? "Contact Name" = some i → row_list.length ≤ i →
       rowGet cols row_list "Contact Name" = some none) ∧
    (∀ (pre rest : List Char), (∀ c ∈ pre, c ≠ '\x7b' ∧ c ≠ '\x7d') →
       pyFormat none
           (String.mk (pre ++ '\x7b' :: ('n' :: 'a' :: 'm' :: 'e' :: '\x7d' :: rest)))
         = (pyFormat none (String.mk rest)).map
             (fun out => String.mk (pre ++ "None".data ++ out.data))) := by
  refine ⟨?_, ?_, ?_⟩
  · intro cols row_list h hmem
    unfold rowGet
    cases hidx : cols.indexOf? h with
    | none =>
      exact absurd (beq_self_eq_true h) (List.indexOf?_eq_none_iff.mp hidx h hmem)
    | some i => simp
  · intro cols row_list i hidx hlen
    unfold rowGet
    rw [hidx, Option.map_some', List.get?_eq_none.mpr hlen]
  · intro pre rest hpre
    exact pyFormat_name_subst none pre rest hpre

/-- Instantiation of `C9_short_rows_absent_name_renders_None`: the
counterexample row's "Contact Name" cell is the absent value. -/
theorem C9_witness :
    rowGet ["Contact email", "Language", "Emails Sent", "Contact Name",
        "Approached (Date)"]
      ["a@x.com", "EN", "0"] "Contact Name" = some none :=
  C9_short_rows_absent_name_renders_None.2.1
    ["Contact email", "Language", "Emails Sent", "Contact Name", "Approached (Date)"]
    ["a@x.com", "EN", "0"] 3 rfl (by decide)



/-- Instantiation of `C6_col_letter_bijective_base26` at index 27. -/
theorem C6_witness : col_letter 27 = letterFor 27 :=
  C6_col_letter_bijective_base26.1 27

/-- Instantiation of `C4_send_email_no_sheet_writes` on a row whose
send fails with a transport error: no sheet write appears and the
sheet is unchanged. -/
theorem C4_witness :
    (∀ a ∈ (send_email
        ⟨["Contact email", "Contact Name", "Language", "Emails Sent",
          "Approached (Date)"],
         [["a@x.com", "Ana", "EN", "0", ""]]⟩
        (fun f => if f = "0_EN.txt" then some "Hi \x7bname\x7d!" else none)
        (.error .transportError) "subject" 0).1,
       ∀ range vio vals, a ≠ Action.sheetWrite range vio vals) ∧
    (∀ sheet, runWrites (send_email
        ⟨["Contact email", "Contact Name", "Language", "Emails Sent",
          "Approached (Date)"],
         [["a@x.com", "Ana", "EN", "0", ""]]⟩
        (fun f => if f = "0_EN.txt" then some "Hi \x7bname\x7d!" else none)
        (.error .transportError) "subject" 0).1 sheet = sheet) :=
  C4_send_email_no_sheet_writes
    ⟨["Contact email", "Contact Name", "Language", "Emails Sent",
      "Approached (Date)"],
     [["a@x.com", "Ana", "EN", "0", ""]]⟩
    (fun f => if f = "0_EN.txt" then some "Hi \x7bname\x7d!" else none)
    (.error .transportError) "subject" 0

/-- Instantiation of `C5_missing_template_skips_row`: a row at step 3
with no step-3 template is skipped with an empty effect trace. -/
theorem C5_witness :
    send_email
        ⟨["Contact email", "Contact Name", "Language", "Emails Sent",
          "Approached (Date)"],
         [["a@x.com", "Ana", "EN", "3", "01.01.25"]]⟩
        (fun f => if f = "0_EN.txt" then some "step zero" else none)
        (.ok "msgid") "subject" 0
      = ([], .error (.fileNotFound "3_EN.txt")) :=
  C5_missing_template_skips_row
    ⟨["Contact email", "Contact Name", "Language", "Emails Sent",
      "Approached (Date)"],
     [["a@x.com", "Ana", "EN", "3", "01.01.25"]]⟩
    (fun f => if f = "0_EN.txt" then some "step zero" else none)
    (.ok "msgid") "subject" 0
    ["a@x.com", "Ana", "EN", "3", "01.01.25"]
    (some "EN") (some "3") 3 rfl rfl rfl rfl rfl

/-- Instantiation of `C1_approached_date_never_overwritten` on a row
whose date cell already holds "01.01.25": the update touches only the
Emails Sent cell "D2:D2" and leaves the date cell "E2:E2" unchanged. -/
theorem C1_witness :
    (∀ vio vals, Action.sheetWrite (cellRange "E" 2) vio vals ∉
       [Action.sheetWrite (cellRange "D" 2) "USER_ENTERED" [["3"]]]) ∧
    (∀ sheet : String → List (List String),
       runWrites [Action.sheetWrite (cellRange "D" 2) "USER_ENTERED" [["3"]]] sheet
         (cellRange "E" 2) = sheet (cellRange "E" 2)) :=
  C1_approached_date_never_overwritten
    ⟨["Contact email", "Contact Name", "Language", "Emails Sent",
      "Approached (Date)"],
     [["a@x.com", "Ana", "EN", "2", "01.01.25"]]⟩
    "12.10.25" 0 [Action.sheetWrite (cellRange "D" 2) "USER_ENTERED" [["3"]]]
    ["a@x.com", "Ana", "EN", "2", "01.01.25"] (some "01.01.25") "E"
    rfl rfl rfl rfl rfl

/-- Instantiation of `C7_after_email_single_cell_ranges` on a first
send (empty date, empty count): the count write of that call is a
single-cell range at sheet row 2 with a letter from the header map. -/
theorem C7_witness :
    ∃ (hdr letter : String) (vals : List (List String)),
      (hdr = "Approached (Date)" ∨ hdr = "Emails Sent") ∧
      Client.cols_mapping
        ⟨["Contact email", "Contact Name", "Language", "Emails Sent",
          "Approached (Date)"],
         [["a@x.com", "Ana", "EN", "0", ""]]⟩ hdr = some letter ∧
      Action.sheetWrite (cellRange "D" 2) "USER_ENTERED" [["1"]]
        = Action.sheetWrite
            (letter ++ toString (0 + 2) ++ ":" ++ letter ++ toString (0 + 2))
            "USER_ENTERED" vals :=
  C7_after_email_single_cell_ranges
    ⟨["Contact email", "Contact Name", "Language", "Emails Sent",
      "Approached (Date)"],
     [["a@x.com", "Ana", "EN", "0", ""]]⟩
    "12.10.25" 0
    [Action.sheetWrite (cellRange "E" 2) "USER_ENTERED" [["12.10.25"]],
     Action.sheetWrite (cellRange "D" 2) "USER_ENTERED" [["1"]]]
    rfl
    (Action.sheetWrite (cellRange "D" 2) "USER_ENTERED" [["1"]])
    (by simp)

/-- Instantiation of `C10_count_write_once_and_last` on a row whose
date is already present: the trace is exactly the one count write. -/
theorem C10_witness :
    ∃ (dL eL : String) (n : Int),
      Client.cols_mapping
        ⟨["Contact email", "Contact Name", "Language", "Emails Sent",
          "Approached (Date)"],
         [["a@x.com", "Ana", "EN", "2", "01.01.25"]]⟩ "Approached (Date)"
        = some dL ∧
      Client.cols_mapping
        ⟨["Contact email", "Contact Name", "Language", "Emails Sent",
          "Approached (Date)"],
         [["a@x.com", "Ana", "EN", "2", "01.01.25"]]⟩ "Emails Sent"
        = some eL ∧
      (truthy (some "01.01.25") = true →
        [Action.sheetWrite (cellRange "D" 2) "USER_ENTERED" [["3"]]]
          = [Action.sheetWrite (cellRange eL (0 + 2)) "USER_ENTERED"
              [[toString n]]]) ∧
      (truthy (some "01.01.25") = false →
        [Action.sheetWrite (cellRange "D" 2) "USER_ENTERED" [["3"]]]
          = [Action.sheetWrite (cellRange dL (0 + 2)) "USER_ENTERED" [["12.10.25"]],
             Action.sheetWrite (cellRange eL (0 + 2)) "USER_ENTERED"
               [[toString n]]]) ∧
      [Action.sheetWrite (cellRange "D" 2) "USER_ENTERED" [["3"]]].getLast?
        = some (Action.sheetWrite (cellRange eL (0 + 2)) "USER_ENTERED"
            [[toString n]]) ∧
      ([Action.sheetWrite (cellRange "D" 2) "USER_ENTERED" [["3"]]].filter (fun a =>
         a == Action.sheetWrite (cellRange eL (0 + 2)) "USER_ENTERED"
           [[toString n]])).length = 1 :=
  C10_count_write_once_and_last
    ⟨["Contact email", "Contact Name", "Language", "Emails Sent",
      "Approached (Date)"],
     [["a@x.com", "Ana", "EN", "2", "01.01.25"]]⟩
    "12.10.25" 0 [Action.sheetWrite (cellRange "D" 2) "USER_ENTERED" [["3"]]]
    ["a@x.com", "Ana", "EN", "2", "01.01.25"] (some "01.01.25")
    rfl rfl rfl


end ReachOut
